import Mathlib

/-!
Verification of the rendering differential analysis engine of the
js-rendering-analyzer repository. The JavaScript source (src/analyzer.js,
src/src/utils.js and the batch runner) is shallowly embedded: strings are
lists of characters, JS numbers are `ℤ`/`ℚ` (all the arithmetic involved is
exact on small integers, so IEEE doubles agree with the rational model on
every value considered here), objects are structures, and thrown exceptions
are `Except` values.
-/

namespace JSA

/-! ## Character helpers

JS `String.prototype.toLowerCase` restricted to ASCII (every pattern the
analyzer compares case-insensitively is ASCII), and the JS `\s` whitespace
class used by the `replace(/\s+/g, ' ')` and `trim()` steps. -/

/-- ASCII lower-casing on code points: uppercase letters are shifted by 32. -/
def lcNat (n : ℕ) : ℕ := if 65 ≤ n ∧ n ≤ 90 then n + 32 else n

/-- ASCII lower-casing of a character. -/
def lcChar (c : Char) : Char :=
  if 65 ≤ c.toNat ∧ c.toNat ≤ 90 then Char.ofNat (c.toNat + 32) else c

/-- Model of `s.toLowerCase()` on the character list of `s`. -/
def lowerList (l : List Char) : List Char := l.map lcChar

/-- Case-insensitive character comparison (the `i` regex flag). -/
def ciEqChar (a b : Char) : Bool := lcNat a.toNat == lcNat b.toNat

/-- The JS `\s` character class (also used by `String.prototype.trim`). -/
def jsWs (c : Char) : Bool :=
  c.toNat == 32 || (9 ≤ c.toNat && c.toNat ≤ 13) || c.toNat == 160 ||
  c.toNat == 0x1680 || (0x2000 ≤ c.toNat && c.toNat ≤ 0x200A) ||
  c.toNat == 0x2028 || c.toNat == 0x2029 || c.toNat == 0x202F ||
  c.toNat == 0x205F || c.toNat == 0x3000 || c.toNat == 0xFEFF

/-- Case-insensitive list prefix test. -/
def ciPrefixL : List Char → List Char → Bool
  | [], _ => true
  | _ :: _, [] => false
  | p :: ps, c :: cs => ciEqChar p c && ciPrefixL ps cs

/-- Case-sensitive list prefix test (for `String.prototype.includes`). -/
def prefixL : List Char → List Char → Bool
  | [], _ => true
  | _ :: _, [] => false
  | p :: ps, c :: cs => (p == c) && prefixL ps cs

/-- Model of `haystack.includes(needle)`: substring containment. -/
def isSubstr (p : List Char) : List Char → Bool
  | [] => p.isEmpty
  | c :: l => prefixL p (c :: l) || isSubstr p l

/-! ## The Text Normalizer (`cleanHtml`, src/analyzer.js lines 1072-1083)

`cleanHtml` is a chain of six `String.prototype.replace` calls:
script blocks (`/<script[^>]*>[\s\S]*?<\/script>/gi`) and style blocks
are deleted, comments (`/<!--[\s\S]*?-->/g`) are deleted, every remaining
tag (`/<[^>]*>/g`) becomes a single space, whitespace runs (`/\s+/g`)
collapse to one space, and the result is trimmed.  Each regex pass is
embedded as a left-to-right scanner with the exact leftmost-match
semantics of `replace` with the `g` flag. -/

/-- Scanner for `[^>]*>`: drops characters through the first `>`;
`none` when no `>` remains (the regex does not match). -/
def dropThroughGt : List Char → Option (List Char)
  | [] => none
  | c :: rest => if c = '>' then some rest else dropThroughGt rest

theorem dropThroughGt_length {l r : List Char} (h : dropThroughGt l = some r) :
    r.length < l.length := by
  induction l with
  | nil => simp [dropThroughGt] at h
  | cons c rest ih =>
    by_cases hc : c = '>'
    · simp [dropThroughGt, hc] at h
      simp [← h]
    · simp [dropThroughGt, hc] at h
      exact Nat.lt_succ_of_lt (ih h)

/-- Scanner for the lazy `[\s\S]*?` followed by a closing delimiter:
returns the suffix after the first (case-insensitive) occurrence of
`close`, or `none` when `close` never occurs. -/
def findClose (close : List Char) : List Char → Option (List Char)
  | [] => none
  | c :: rest =>
    if ciPrefixL close (c :: rest) then some ((c :: rest).drop close.length)
    else findClose close rest

theorem findClose_length {close l r : List Char} (h : findClose close l = some r) :
    r.length ≤ l.length := by
  induction l with
  | nil => simp [findClose] at h
  | cons c rest ih =>
    by_cases hc : ciPrefixL close (c :: rest) = true
    · simp [findClose, hc] at h
      calc r.length = ((c :: rest).drop close.length).length := by rw [h]
        _ ≤ (c :: rest).length := by simp [List.length_drop]
    · simp [findClose, hc] at h
      exact Nat.le_succ_of_le (ih h)

/-- One attempted match of a delimited block
(`<script[^>]*>[\s\S]*?<\/script>`, the `style` variant, or
`<!--[\s\S]*?-->`) at the head of the input.  `openTail` is the opening
literal after its leading `<`; when `needsGt` is set the opening literal
is followed by `[^>]*>`.  Returns the suffix after the whole match. -/
def delimMatch (openTail close : List Char) (needsGt : Bool) (l : List Char) :
    Option (List Char) :=
  if ciPrefixL ('<' :: openTail) l then
    match (if needsGt then dropThroughGt (l.drop (openTail.length + 1))
           else some (l.drop (openTail.length + 1))) with
    | some afterOpen => findClose close afterOpen
    | none => none
  else none

theorem delimMatch_length {openTail close : List Char} {needsGt : Bool}
    {c : Char} {rest r : List Char}
    (h : delimMatch openTail close needsGt (c :: rest) = some r) :
    r.length < (c :: rest).length := by
  unfold delimMatch at h
  by_cases hp : ciPrefixL ('<' :: openTail) (c :: rest) = true
  · simp only [hp, if_true] at h
    cases hgt : (if needsGt then dropThroughGt ((c :: rest).drop (openTail.length + 1))
                 else some ((c :: rest).drop (openTail.length + 1))) with
    | none => rw [hgt] at h; simp at h
    | some afterOpen =>
      rw [hgt] at h
      simp only at h
      have h1 : afterOpen.length < (c :: rest).length := by
        by_cases hng : needsGt = true
        · simp only [hng, if_true] at hgt
          have := dropThroughGt_length hgt
          calc afterOpen.length < ((c :: rest).drop (openTail.length + 1)).length := this
            _ ≤ (c :: rest).length := by simp [List.length_drop]; omega
        · simp only [Bool.not_eq_true] at hng
          simp only [hng] at hgt
          simp only [Bool.false_eq_true, if_false, Option.some.injEq] at hgt
          rw [← hgt]
          simp only [List.length_drop, List.length_cons]
          omega
      exact Nat.lt_of_le_of_lt (findClose_length h) h1
  · simp only [hp] at h
    simp at h

/-- Global replace of a delimited block pattern by the empty string:
the embedding of one `replace(/<open…>[\s\S]*?<close>/gi, '')` pass.
Where no match starts, the character is kept and scanning resumes one
position later, exactly as the regex engine does. -/
def removeDelim (openTail close : List Char) (needsGt : Bool) : List Char → List Char
  | [] => []
  | c :: rest =>
    match h : delimMatch openTail close needsGt (c :: rest) with
    | some rest' => removeDelim openTail close needsGt rest'
    | none => c :: removeDelim openTail close needsGt rest
termination_by l => l.length
decreasing_by
  · exact delimMatch_length h
  · simp [Nat.lt_succ_self]

/-- First `replace`: script blocks are deleted. -/
def stripScripts : List Char → List Char :=
  removeDelim ['s', 'c', 'r', 'i', 'p', 't']
    ['<', '/', 's', 'c', 'r', 'i', 'p', 't', '>'] true

/-- Second `replace`: style blocks are deleted. -/
def stripStyles : List Char → List Char :=
  removeDelim ['s', 't', 'y', 'l', 'e']
    ['<', '/', 's', 't', 'y', 'l', 'e', '>'] true

/-- Third `replace`: HTML comments are deleted. -/
def stripComments : List Char → List Char :=
  removeDelim ['!', '-', '-'] ['-', '-', '>'] false

/-- Fourth `replace` (`/<[^>]*>/g`, replacement a single space): every
remaining tag becomes one space. -/
def stripTags : List Char → List Char
  | [] => []
  | c :: rest =>
    if c = '<' then
      match h : dropThroughGt rest with
      | some rest' => ' ' :: stripTags rest'
      | none => c :: stripTags rest
    else c :: stripTags rest
termination_by l => l.length
decreasing_by
  · exact Nat.lt_succ_of_lt (dropThroughGt_length h)
  · simp [Nat.lt_succ_self]
  · simp [Nat.lt_succ_self]

/-- Worker for `replace(/\s+/g, ' ')`: the flag records whether the
previous character belonged to a whitespace run already replaced. -/
def collapseGo : Bool → List Char → List Char
  | _, [] => []
  | prevWs, c :: rest =>
    if jsWs c then
      if prevWs then collapseGo true rest else ' ' :: collapseGo true rest
    else c :: collapseGo false rest

/-- Fifth `replace`: whitespace runs collapse to a single space. -/
def collapseWs (l : List Char) : List Char := collapseGo false l

/-- Model of `String.prototype.trim`. -/
def trimWs (l : List Char) : List Char :=
  (((l.dropWhile jsWs).reverse.dropWhile jsWs)).reverse

/-- The Text Normalizer `cleanHtml` (src/analyzer.js lines 1072-1083):
a pure, total function on character lists. -/
def cleanHtml (l : List Char) : List Char :=
  trimWs (collapseWs (stripTags (stripComments (stripStyles (stripScripts l)))))

/-! ## Content difference percentage (`analyzeContent`, src/analyzer.js 704-728) -/

/-- JS `Math.round`: round half toward positive infinity. -/
def jsRound (q : ℚ) : ℤ := ⌊q + 1 / 2⌋

/-- The percent-change computation of `analyzeContent` as a function of the
normalized (cleaned) raw and rendered text lengths, mirroring
src/analyzer.js lines 704-728 exactly: a 0 initial value, the rounded
ratio when the raw length is positive, the `> 500` extreme-value rework,
and the `100` fallback when only rendered content exists. -/
def percentChange (rawLen renderedLen : ℕ) : ℤ :=
  let difference : ℤ := (renderedLen : ℤ) - (rawLen : ℤ)
  if 0 < rawLen then
    let pct : ℤ := jsRound ((difference : ℚ) / (rawLen : ℚ) * 100)
    if 500 < |pct| then
      if rawLen < 100 then
        if 1000 < renderedLen then 100
        else min 50 (jsRound ((difference : ℚ) / 10))
      else pct.sign * min |pct| 200
    else pct
  else if 0 < renderedLen then 100 else 0

/-! ## Browser runs and the summary (src/analyzer.js 1104-1188)

A `BrowserRun` is the per-engine record stored into `results.browsers`:
either the object returned by `analyzeBrowser` (status `success` /
`protected_site`) or the `{ error, status: 'failed' }` record written by
the catch handler in `analyze` (lines 54-57).  Fields that a failed
record does not carry are `Option`s; the code reads them with `|| 0`. -/

/-- One category of `jsRenderedContent.trulyMissingContent`; `count` is
absent for the `debugInfo` entry (JS `undefined > 0` is false). -/
structure MissingCategory where
  count : Option ℤ := none

/-- The enhanced business analysis object used by the revised scorer
(src/analyzer.js 2986-3047 and `calculateEcommerceDependency` 3455-3467). -/
structure EnhancedAnalysis where
  pricingTotal : ℕ := 0
  pricingMissing : List String := []
  reviewsMissing : List String := []
  inventoryTotal : ℕ := 0
  inventoryMissing : List String := []
  navMainMissing : List String := []
  buttonsTotal : ℕ := 0
  buttonsMissingCategories : List String := []
  ecommerceDependent : Bool := false

/-- The `jsRenderedContent` field of a successful run. -/
structure JsRenderedContent where
  trulyMissingContent : Option (List MissingCategory) := none
  enhancedAnalysis : Option EnhancedAnalysis := none

/-- One per-engine record of `results.browsers`. -/
structure BrowserRun where
  error : Option String := none
  status : String := ""
  contentDifferencePercent : Option ℤ := none
  significantChange : Bool := false
  frameworks : List String := []
  rawContentLength : Option ℕ := none
  rawHtmlLength : Option ℕ := none
  performanceTotalLoadTime : Option ℚ := none
  jsRenderedContent : Option JsRenderedContent := none

/-- JS truthiness of an optional string field (`b.error`, a spreadsheet
cell, …): absent and the empty string are falsy. -/
def strTruthy (e : Option String) : Bool :=
  match e with
  | none => false
  | some s => s != ""

/-- The record written by the catch handler of `analyze`
(src/analyzer.js lines 54-57) when an engine session throws. -/
def failedRun (msg : String) : BrowserRun :=
  { error := some msg, status := "failed" }

/-- `calculateConsistency` (src/analyzer.js 1171-1178): population variance
of the absolute diff percentages, banded at 25 and 100. -/
def calculateConsistency (browsers : List BrowserRun) : String :=
  if browsers.length < 2 then "N/A"
  else
    let differences : List ℚ :=
      browsers.map (fun b => |((b.contentDifferencePercent.getD 0 : ℤ) : ℚ)|)
    let mean : ℚ := differences.sum / (differences.length : ℚ)
    let variance : ℚ :=
      (differences.map (fun d => (d - mean) ^ 2)).sum / (differences.length : ℚ)
    if variance < 25 then "High" else if variance < 100 then "Medium" else "Low"

/-- `calculateConfidence` (src/analyzer.js 1180-1188): 100, minus 30 per
run whose `error` field is truthy, minus 15 when consistency is Low,
floored at 0. -/
def calculateConfidence (browsers : List BrowserRun) : ℤ :=
  let errorCount : ℕ := (browsers.filter (fun b => strTruthy b.error)).length
  let confidence : ℤ := 100 - (errorCount : ℤ) * 30 -
    (if calculateConsistency browsers = "Low" then 15 else 0)
  max 0 confidence

/-- The six framework names whose detection is penalized. -/
def modernFrameworks : List String :=
  ["React", "Vue.js", "Angular", "Next.js", "Nuxt.js", "Svelte"]

/-- Does a run report any truly-missing content
(`Object.values(trulyMissingContent).some(category => category.count > 0)`)? -/
def hasMissingContent (b : BrowserRun) : Bool :=
  match b.jsRenderedContent with
  | some j =>
    match j.trulyMissingContent with
    | some cats => cats.any (fun c => match c.count with
        | some n => 0 < n
        | none => false)
    | none => false
  | none => false

/-- `calculateScore` (src/analyzer.js 1138-1168).  `avgRawContent` divides
by `browsers.length`; in JS an empty list yields `NaN`, and `NaN < 500`
is false, so the penalty is skipped — embedded as the emptiness guard. -/
def calculateScore (browsers : List BrowserRun) (frameworks : List String)
    (avgDifferencePercent : ℚ) : ℤ :=
  let bandPenalty : ℤ :=
    if 100 < avgDifferencePercent then 40
    else if 50 < avgDifferencePercent then 30
    else if 25 < avgDifferencePercent then 20
    else if 10 < avgDifferencePercent then 10
    else 0
  let confirmedModern := frameworks.filter (fun f => f ∈ modernFrameworks)
  let hasSignificantChanges := browsers.any (fun b => b.significantChange)
  let hasActualMissingContent := browsers.any hasMissingContent
  let sigPenalty : ℤ :=
    if hasSignificantChanges && hasActualMissingContent then 25 else 0
  let avgRawContent : ℚ :=
    (browsers.map (fun b => ((b.rawContentLength.getD 0 : ℕ) : ℚ))).sum /
      (browsers.length : ℚ)
  let rawPenalty : ℤ :=
    if browsers.length ≠ 0 ∧ avgRawContent < 500 then 15 else 0
  let score : ℤ :=
    100 - bandPenalty - (confirmedModern.length : ℤ) * 10 - sigPenalty - rawPenalty
  max 0 (min 100 score)

/-- The summary object built by `generateSummary` (src/analyzer.js 1104-1135). -/
structure Summary where
  requiresJSRendering : Bool
  averageContentChange : ℤ
  frameworksDetected : List String
  llmAccessibilityScore : ℤ
  crossBrowserConsistency : String
  analysisConfidence : ℤ
  totalLoadTime : Option ℤ := none
  error : Option String := none

/-- JS `[...new Set(l)]`: deduplication keeping first occurrences. -/
def dedupFirst (l : List String) : List String :=
  l.foldl (fun acc x => if x ∈ acc then acc else acc ++ [x]) []

/-- The body of `generateSummary` applied to the already-filtered list of
non-error runs. -/
def summaryOfBrowsers (browsers : List BrowserRun) : Summary :=
  if browsers.length = 0 then
    { requiresJSRendering := false
      averageContentChange := 0
      frameworksDetected := []
      llmAccessibilityScore := 0
      crossBrowserConsistency := "N/A"
      analysisConfidence := 0
      error := some "All browsers failed" }
  else
    let hasSignificantChanges := browsers.any (fun b => b.significantChange)
    let avgDifferencePercent : ℚ :=
      (browsers.map (fun b => |((b.contentDifferencePercent.getD 0 : ℤ) : ℚ)|)).sum /
        (browsers.length : ℚ)
    let allFrameworks := dedupFirst (browsers.map (fun b => b.frameworks)).flatten
    { requiresJSRendering := hasSignificantChanges
      averageContentChange := jsRound avgDifferencePercent
      frameworksDetected := allFrameworks
      llmAccessibilityScore := calculateScore browsers allFrameworks avgDifferencePercent
      crossBrowserConsistency := calculateConsistency browsers
      analysisConfidence := calculateConfidence browsers
      totalLoadTime := some (jsRound
        ((browsers.map (fun b => b.performanceTotalLoadTime.getD 0)).sum /
          (browsers.length : ℚ))) }

/-- `generateSummary` (src/analyzer.js 1104-1135): filter the error runs
out first (`Object.values(this.results.browsers).filter(b => !b.error)`),
then aggregate only over the remainder. -/
def generateSummary (runs : List BrowserRun) : Summary :=
  summaryOfBrowsers (runs.filter (fun b => !strTruthy b.error))

/-! ## The other two scorer revisions cited for claim C5 -/

/-- `calculateScore` of src/src/utils.js lines 119-157 (different bands,
a 15-point modern-framework penalty, an unconditional significant-change
penalty, a 20-point thin-raw penalty and a +5 structure bonus). -/
def utilsCalculateScore (browsers : List BrowserRun) (frameworks : List String)
    (avgDifferencePercent : ℚ) : ℤ :=
  let bandPenalty : ℤ :=
    if 50 < avgDifferencePercent then 40
    else if 25 < avgDifferencePercent then 30
    else if 10 < avgDifferencePercent then 20
    else 0
  let modernPenalty : ℤ :=
    if frameworks.length ≠ 0 then
      ((frameworks.filter (fun f => f ∈ modernFrameworks)).length : ℤ) * 15
    else 0
  let sigPenalty : ℤ :=
    if browsers.any (fun b => b.significantChange) then 25 else 0
  let avgRawContent : ℚ :=
    (browsers.map (fun b => ((b.rawContentLength.getD 0 : ℕ) : ℚ))).sum /
      (browsers.length : ℚ)
  let rawPenalty : ℤ :=
    if browsers.length ≠ 0 ∧ avgRawContent < 500 then 20 else 0
  let structureBonus : ℤ :=
    if browsers.any (fun b => 2000 < b.rawHtmlLength.getD 0) then 5 else 0
  let score : ℤ :=
    100 - bandPenalty - modernPenalty - sigPenalty - rawPenalty + structureBonus
  max 0 (min 100 score)

/-- `calculateEcommerceDependency` (src/analyzer.js 3455-3467). -/
def calculateEcommerceDependency (a : EnhancedAnalysis) : ℤ :=
  let totalCritical : ℕ := a.pricingTotal + a.buttonsTotal + a.inventoryTotal
  let missingCritical : ℕ := a.pricingMissing.length +
    (a.buttonsMissingCategories.filter
      (fun c => c = "purchase" ∨ c = "cart")).length +
    a.inventoryMissing.length
  if totalCritical = 0 then 0
  else jsRound ((missingCritical : ℚ) / (totalCritical : ℚ) * 100)

/-- Per-run deduction of the enhanced scorer's `forEach` body
(src/analyzer.js 3002-3040). -/
def enhancedRunDeduction (b : BrowserRun) : ℤ :=
  match (b.jsRenderedContent.bind (fun j => j.enhancedAnalysis)) with
  | some a =>
    (if a.pricingMissing.length ≠ 0 then 30 else 0) +
    (if a.reviewsMissing.length ≠ 0 then 15 else 0) +
    (if 5 < a.navMainMissing.length then 20
     else (a.navMainMissing.length : ℤ) * 2) +
    (if a.buttonsMissingCategories.any
        (fun c => c = "purchase" || c = "cart" || c = "buy") then 25 else 0) +
    (if a.ecommerceDependent then ⌊(calculateEcommerceDependency a : ℚ) / 10⌋ else 0)
  | none =>
    if b.significantChange && hasMissingContent b then 25 else 0

/-- The enhanced `calculateScore` revision (src/analyzer.js 2986-3047). -/
def enhancedCalculateScore (browsers : List BrowserRun) (frameworks : List String)
    (avgDifferencePercent : ℚ) : ℤ :=
  let bandPenalty : ℤ :=
    if 100 < avgDifferencePercent then 40
    else if 50 < avgDifferencePercent then 30
    else if 25 < avgDifferencePercent then 20
    else if 10 < avgDifferencePercent then 10
    else 0
  let confirmedModern := frameworks.filter (fun f => f ∈ modernFrameworks)
  let perRun : ℤ := (browsers.map enhancedRunDeduction).sum
  let avgRawContent : ℚ :=
    (browsers.map (fun b => ((b.rawContentLength.getD 0 : ℕ) : ℚ))).sum /
      (browsers.length : ℚ)
  let rawPenalty : ℤ :=
    if browsers.length ≠ 0 ∧ avgRawContent < 500 then 15 else 0
  let score : ℤ :=
    100 - bandPenalty - (confirmedModern.length : ℤ) * 10 - perRun - rawPenalty
  max 0 (min 100 score)

/-! ## Blocking detection and the enhanced-evasion run
(src/analyzer.js 586-606 and 435-441) -/

/-- The settled page state `detectBlocking` inspects inside
`page.evaluate`: the document title, the body inner text (`none` models a
missing `document.body`), and the body child count. -/
structure PageState where
  title : String
  bodyText : Option String
  bodyChildren : ℕ

/-- The fixed blocking indicator list (src/analyzer.js 592-595). -/
def blockingKeywords : List String :=
  ["access denied", "blocked", "security check", "captcha",
   "robot", "automated", "suspicious activity", "ray id"]

/-- `detectBlocking` (src/analyzer.js 586-606): a keyword occurs in the
lower-cased title or body text, or the body is missing or childless. -/
def detectBlocking (page : PageState) : Bool :=
  let title := lowerList page.title.data
  let bodyText :=
    match page.bodyText with
    | some s => lowerList s.data
    | none => []
  blockingKeywords.any
    (fun kw => isSubstr kw.data title || isSubstr kw.data bodyText) ||
  page.bodyText.isNone || page.bodyChildren == 0

/-- The blocking check of `analyzeWithEnhancedEvasion`
(src/analyzer.js 437-441): a detected block throws, otherwise the run
continues and is eventually returned with `status: 'success'`. -/
def enhancedEvasionRun (page : PageState) (analysis : BrowserRun) :
    Except String BrowserRun :=
  if detectBlocking page then
    Except.error "Site detected automation and blocked access"
  else Except.ok { analysis with status := "success" }

/-- The catch handler of the engine loop in `analyze`
(src/analyzer.js 49-58): a thrown error becomes a `failed` record. -/
def recordRun (r : Except String BrowserRun) : BrowserRun :=
  match r with
  | Except.ok run => run
  | Except.error msg => failedRun msg

/-! ## Primary / fallback navigation (`analyzeBrowser`, src/analyzer.js 186-238) -/

/-- Is a navigation error the transport-level HTTP/2 protocol failure
(`error.message.includes('ERR_HTTP2_PROTOCOL_ERROR')`)? -/
def isHttp2Error (msg : String) : Bool :=
  isSubstr "ERR_HTTP2_PROTOCOL_ERROR".data msg.data

/-- Outcome of the navigation phase: the final result plus how many
fallback navigation attempts were made. -/
structure NavOutcome (α : Type) where
  result : Except String α
  fallbackAttempts : ℕ

/-- The try/catch of src/analyzer.js 189-238: a successful primary
navigation is used as is; an HTTP/2 protocol failure triggers exactly one
fallback attempt under the degraded HTTP/1.1 context (whose own outcome is
final); any other navigation error is rethrown without a fallback. -/
def navigateWithHttp2Fallback {α : Type} (primary fallback : Except String α) :
    NavOutcome α :=
  match primary with
  | Except.ok r => ⟨Except.ok r, 0⟩
  | Except.error msg =>
    if isHttp2Error msg then ⟨fallback, 1⟩ else ⟨Except.error msg, 0⟩

/-! ## The classifier pass of `analyzeJSRenderedContentFixed`
(src/analyzer.js 876-994) -/

/-- The settled document as seen by the `page.evaluate` classifier:
inner texts of the candidate elements per selector group. -/
structure SettledDoc where
  navLinks : List String := []
  headings : List String := []
  priceElems : List String := []
  buttons : List String := []

/-- Does the text contain the `\d+\.\d{2}` pattern (a digit, a dot and
two digits somewhere)? -/
def hasDecimalPattern : List Char → Bool
  | c1 :: c2 :: c3 :: c4 :: rest =>
    (c1.isDigit && c2 == '.' && c3.isDigit && c4.isDigit) ||
    hasDecimalPattern (c2 :: c3 :: c4 :: rest)
  | _ => false

/-- The currency-symbol class `[\$£€¥₹¢]` of src/analyzer.js line 945. -/
def isCurrencyChar (c : Char) : Bool :=
  c == '$' || c == '£' || c == '€' || c == '¥' || c == '₹' || c == '¢'

/-- One navigation link candidate (src/analyzer.js 900-919): trimmed text
longer than 2, searched in the lower-cased raw HTML and raw text under
three terms; a missing candidate contributes its first 50 characters. -/
def navLinkMissing (rawHtmlLow rawTextLow : List Char) (s : String) :
    Option (List Char) :=
  let t := trimWs s.data
  if 2 < t.length then
    let low := lowerList t
    let terms := [low, low.filter (fun c => !jsWs c), low.take 10]
    if terms.any (fun term => isSubstr term rawHtmlLow || isSubstr term rawTextLow)
    then none
    else some (t.take 50)
  else none

/-- One heading candidate (src/analyzer.js 924-935): the first 30
lower-cased characters are searched in raw HTML and raw text. -/
def headingMissing (rawHtmlLow rawTextLow : List Char) (s : String) :
    Option (List Char) :=
  let t := trimWs s.data
  if 2 < t.length then
    let searchText := (lowerList t).take 30
    if isSubstr searchText rawHtmlLow || isSubstr searchText rawTextLow then none
    else some (t.take 60)
  else none

/-- One price candidate (src/analyzer.js 943-952): kept when the trimmed
text is truthy and carries a currency symbol or a decimal amount; searched
in the lower-cased raw HTML only. -/
def priceMissing (rawHtmlLow : List Char) (s : String) : Option (List Char) :=
  let t := trimWs s.data
  if t.length ≠ 0 ∧ (t.any isCurrencyChar ∨ hasDecimalPattern t = true) then
    if isSubstr (lowerList t) rawHtmlLow then none else some (t.take 30)
  else none

/-- One button candidate (src/analyzer.js 960-969): trimmed text longer
than 1, searched in the lower-cased raw HTML only. -/
def buttonMissing (rawHtmlLow : List Char) (s : String) : Option (List Char) :=
  let t := trimWs s.data
  if 1 < t.length then
    if isSubstr (lowerList t) rawHtmlLow then none else some (t.take 30)
  else none

/-- Count and capped examples reported per category. -/
structure CategoryReport where
  count : ℕ
  examples : List (List Char)

/-- The missing-content object returned by the classifier pass. -/
structure MissingReport where
  navigation : CategoryReport
  headings : CategoryReport
  criticalData : CategoryReport
  interactiveElements : CategoryReport

/-- The `page.evaluate` classifier of `analyzeJSRenderedContentFixed`
(src/analyzer.js 881-994).  Navigation links, headings and price elements
are walked in full; button candidates are truncated to the first 20
(`Array.from(buttons).slice(0, 20)`) before testing; every `examples`
list is capped to 3 (`slice(0, 3)`). -/
def jsMissingReport (rawHtml rawText : String) (doc : SettledDoc) : MissingReport :=
  let rawHtmlLow := lowerList rawHtml.data
  let rawTextLow := lowerList rawText.data
  let navM := doc.navLinks.filterMap (navLinkMissing rawHtmlLow rawTextLow)
  let headM := doc.headings.filterMap (headingMissing rawHtmlLow rawTextLow)
  let priceM := doc.priceElems.filterMap (priceMissing rawHtmlLow)
  let btnM := (doc.buttons.take 20).filterMap (buttonMissing rawHtmlLow)
  { navigation := ⟨navM.length, navM.take 3⟩
    headings := ⟨headM.length, headM.take 3⟩
    criticalData := ⟨priceM.length, priceM.take 3⟩
    interactiveElements := ⟨btnM.length, btnM.take 3⟩ }

/-! ## The batch runner (`runBatch`, src/unnamed/part_000) -/

/-- One spreadsheet row as read by `runBatch`: column A (the URL) and
column B (the first result cell). -/
structure SheetRow where
  url : Option String := none
  resultCell : Option String := none

/-- Eligibility predicate of src/unnamed/part_000 lines 54-59: the URL
cell is truthy and the result cell is falsy. -/
def rowEligible (r : SheetRow) : Bool :=
  strTruthy r.url && !strTruthy r.resultCell

/-- The eligible targets, in sheet order, skipping the header row
(src/unnamed/part_000 lines 48-60). -/
def urlsToProcess (rows : List SheetRow) : List SheetRow :=
  (rows.drop 1).filter rowEligible

/-- The batch cap of `runBatch` (lines 69-73 and 130-135): the processed
slice `urlsToProcess.slice(0, maxBatchSize)` and the reported remainder
(`some` exactly when the eligible list exceeded the cap). -/
def runBatchPlan (rows : List SheetRow) (maxBatchSize : ℕ) :
    List SheetRow × Option ℕ :=
  let urls := urlsToProcess rows
  (urls.take maxBatchSize,
   if maxBatchSize < urls.length then some (urls.length - maxBatchSize) else none)

/-- The `analyzeContent` result fields relevant to `significantChange`
and the summary (src/analyzer.js 751-762), as a function of the cleaned
raw and rendered text lengths. -/
def analyzeContentRun (rawLen renderedLen : ℕ) : BrowserRun :=
  let difference : ℤ := (renderedLen : ℤ) - (rawLen : ℤ)
  let pct := percentChange rawLen renderedLen
  { status := "success"
    contentDifferencePercent := some pct
    significantChange := decide (15 < |pct|) || decide (2000 < |difference|)
    rawContentLength := some rawLen }

/-! ## Helper lemmas -/

theorem clamp01 (s : ℤ) : 0 ≤ max 0 (min 100 s) ∧ max 0 (min 100 s) ≤ 100 :=
  ⟨le_max_left 0 _, max_le (by norm_num) (min_le_left 100 s)⟩

/-! ## Claim C5 -/

/-- Claim C5: for every possible combination of browser-run findings,
framework lists, and run statuses given to the scorer, the resulting
accessibility score lies in [0, 100] — for all three scorer revisions
(src/analyzer.js 1138-1168, src/src/utils.js 119-157,
src/analyzer.js 2986-3047), each of which ends in
`Math.max(0, Math.min(100, Math.round(score)))`. -/
theorem score_value_in_range (browsers : List BrowserRun) (frameworks : List String)
    (avgDifferencePercent : ℚ) :
    (0 ≤ calculateScore browsers frameworks avgDifferencePercent ∧
      calculateScore browsers frameworks avgDifferencePercent ≤ 100) ∧
    (0 ≤ utilsCalculateScore browsers frameworks avgDifferencePercent ∧
      utilsCalculateScore browsers frameworks avgDifferencePercent ≤ 100) ∧
    (0 ≤ enhancedCalculateScore browsers frameworks avgDifferencePercent ∧
      enhancedCalculateScore browsers frameworks avgDifferencePercent ≤ 100) :=
  ⟨clamp01 _, clamp01 _, clamp01 _⟩

/-! ## Claim C9 -/

/-- Claim C9: when the batch runner sees more eligible targets than the
configured cap, exactly the cap number are processed and the count of the
remaining targets is explicitly reported; with at most the cap, everything
is processed and no remainder is reported. -/
theorem batch_cap_and_remainder (rows : List SheetRow) (maxBatchSize : ℕ) :
    (runBatchPlan rows maxBatchSize).1.length =
      min maxBatchSize (urlsToProcess rows).length ∧
    (maxBatchSize < (urlsToProcess rows).length →
      (runBatchPlan rows maxBatchSize).2 =
        some ((urlsToProcess rows).length - maxBatchSize)) ∧
    ((urlsToProcess rows).length ≤ maxBatchSize →
      (runBatchPlan rows maxBatchSize).2 = none) := by
  refine ⟨?_, ?_, ?_⟩
  · simp [runBatchPlan, List.length_take]
  · intro h
    simp [runBatchPlan, h]
  · intro h
    simp [runBatchPlan, Nat.not_lt.mpr h]

/-- Witness for C9 at the scenario of the spec: 120 eligible targets and a
cap of 50 give exactly 50 processed and a reported remainder of 70. -/
theorem batch_cap_and_remainder_witness :
    50 < (urlsToProcess ({ url := none } ::
        List.replicate 120 { url := some "https://example.com" })).length ∧
    (runBatchPlan ({ url := none } ::
        List.replicate 120 { url := some "https://example.com" }) 50).1.length = 50 ∧
    (runBatchPlan ({ url := none } ::
        List.replicate 120 { url := some "https://example.com" }) 50).2 = some 70 := by
  have h := batch_cap_and_remainder
    ({ url := none } :: List.replicate 120 { url := some "https://example.com" }) 50
  refine ⟨by decide, ?_, h.2.1 (by decide)⟩
  rw [h.1]
  decide

/-! ## Claim C7 -/

/-- Claim C7: a transport-level HTTP/2 protocol failure during primary
navigation triggers exactly one fallback attempt under the degraded
HTTP/1.1 transport; if that fallback also fails the run is recorded as
`failed` with the navigation error; a non-transport navigation error
fails directly with zero fallback attempts; a successful primary
navigation makes no fallback attempt. -/
theorem nav_fallback_policy :
    (∀ (msg : String) (fallback : Except String BrowserRun),
      isHttp2Error msg = true →
        (navigateWithHttp2Fallback (Except.error msg) fallback).fallbackAttempts = 1 ∧
        (navigateWithHttp2Fallback (Except.error msg) fallback).result = fallback) ∧
    (∀ (primaryMsg fallbackMsg : String),
      isHttp2Error primaryMsg = true →
        recordRun (navigateWithHttp2Fallback (Except.error primaryMsg)
            (Except.error fallbackMsg : Except String BrowserRun)).result =
          failedRun fallbackMsg) ∧
    (∀ (msg : String) (fallback : Except String BrowserRun),
      isHttp2Error msg = false →
        (navigateWithHttp2Fallback (Except.error msg) fallback).fallbackAttempts = 0 ∧
        (navigateWithHttp2Fallback (Except.error msg) fallback).result =
          Except.error msg) ∧
    (∀ (r : BrowserRun) (fallback : Except String BrowserRun),
      (navigateWithHttp2Fallback (Except.ok r) fallback).fallbackAttempts = 0 ∧
      (navigateWithHttp2Fallback (Except.ok r) fallback).result = Except.ok r) := by
  refine ⟨?_, ?_, ?_, ?_⟩
  · intro msg fallback h
    simp [navigateWithHttp2Fallback, h]
  · intro primaryMsg fallbackMsg h
    simp [navigateWithHttp2Fallback, h, recordRun]
  · intro msg fallback h
    simp [navigateWithHttp2Fallback, h]
  · intro r fallback
    simp [navigateWithHttp2Fallback]

/-- Witness for C7: a concrete HTTP/2 protocol failure whose fallback also
fails ends as a `failed` record carrying the fallback's navigation error. -/
theorem nav_fallback_policy_witness :
    isHttp2Error "page.goto: net::ERR_HTTP2_PROTOCOL_ERROR" = true ∧
    recordRun (navigateWithHttp2Fallback
        (Except.error "page.goto: net::ERR_HTTP2_PROTOCOL_ERROR")
        (Except.error "page.goto: Timeout 30000ms exceeded" :
          Except String BrowserRun)).result =
      failedRun "page.goto: Timeout 30000ms exceeded" :=
  ⟨by decide,
   nav_fallback_policy.2.1 "page.goto: net::ERR_HTTP2_PROTOCOL_ERROR"
     "page.goto: Timeout 30000ms exceeded" (by decide)⟩

/-! ## Claim C2 -/

/-- A successful run with a given diff percentage (zero here, so the
consistency arithmetic is trivial). -/
def okRun0 : BrowserRun :=
  { status := "success", contentDifferencePercent := some 0 }

/-- Claim C2 (code bug): with one failed engine out of three, the claim
(and `calculateConfidence` itself, whose `errorCount` deduction would give
70) wants the reported confidence reduced by exactly the 30-point failure
penalty; but `generateSummary` filters the error runs out before calling
`calculateConfidence` (src/analyzer.js 1105 and 1132), so the reported
`analysisConfidence` is 100 — the deduction is dead code. -/
theorem confidence_one_failure_dead_code :
    (generateSummary [okRun0, okRun0, failedRun "Navigation timeout"]).analysisConfidence
      = 100 ∧
    calculateConfidence [okRun0, okRun0, failedRun "Navigation timeout"] = 70 ∧
    calculateConfidence [okRun0, okRun0] = 100 := by
  refine ⟨?_, ?_, ?_⟩
  · simp [generateSummary, summaryOfBrowsers, okRun0, failedRun, strTruthy,
      calculateConfidence, calculateConsistency]
  · simp [calculateConfidence, calculateConsistency, okRun0, failedRun, strTruthy]
  · simp [calculateConfidence, calculateConsistency, okRun0, strTruthy]

/-! ## Claim C3 -/

/-- Claim C3: a failed or blocked run (recorded by the catch handler with
a truthy `error`) is excluded entirely from the set over which the summary
aggregates — appending such a run changes nothing at all about the summary,
so it is never averaged in as a zero-change success; and when every run has
failed, the score is exactly 0 with the explicit `error` marker. -/
theorem failed_runs_excluded_from_average (runs : List BrowserRun) (msg : String)
    (hmsg : msg ≠ "") :
    generateSummary (runs ++ [failedRun msg]) = generateSummary runs ∧
    ((∀ b ∈ runs, strTruthy b.error = true) →
      (generateSummary runs).llmAccessibilityScore = 0 ∧
      (generateSummary runs).error = some "All browsers failed") := by
  constructor
  · unfold generateSummary
    congr 1
    rw [List.filter_append]
    simp [failedRun, strTruthy, hmsg]
  · intro hall
    have hfilter : runs.filter (fun b => !strTruthy b.error) = [] := by
      rw [List.filter_eq_nil_iff]
      intro b hb
      simp [hall b hb]
    unfold generateSummary
    rw [hfilter]
    simp [summaryOfBrowsers]

/-- Witness for C3: appending a failed run to a single already-failed run
leaves the summary unchanged, and the all-failed summary is the zero score
with the error marker. -/
theorem failed_runs_excluded_from_average_witness :
    generateSummary ([failedRun "HTTP 503"] ++ [failedRun "Navigation timeout"]) =
      generateSummary [failedRun "HTTP 503"] ∧
    (generateSummary [failedRun "HTTP 503"]).llmAccessibilityScore = 0 ∧
    (generateSummary [failedRun "HTTP 503"]).error = some "All browsers failed" := by
  have h := failed_runs_excluded_from_average [failedRun "HTTP 503"]
    "Navigation timeout" (by decide)
  exact ⟨h.1, h.2 (by decide)⟩

/-! ## Claim C10 -/

/-- Claim C10: `significantChange` is true exactly when the absolute
content difference percentage exceeds 15 or the absolute character
difference between the normalized rendered and raw texts exceeds 2000
(src/analyzer.js 756); and the summary's `requiresJSRendering` is true
iff at least one non-error run has `significantChange` true
(src/analyzer.js 1120 and 1127). -/
theorem significant_change_drives_requires_js (rawLen renderedLen : ℕ)
    (runs : List BrowserRun) :
    ((analyzeContentRun rawLen renderedLen).significantChange = true ↔
      (15 < |percentChange rawLen renderedLen| ∨
        2000 < |(renderedLen : ℤ) - (rawLen : ℤ)|)) ∧
    ((generateSummary runs).requiresJSRendering = true ↔
      ∃ b ∈ runs, strTruthy b.error = false ∧ b.significantChange = true) := by
  constructor
  · simp [analyzeContentRun]
  · unfold generateSummary summaryOfBrowsers
    by_cases hf : (runs.filter (fun b => !strTruthy b.error)).length = 0
    · rw [if_pos hf]
      simp only [List.length_eq_zero] at hf
      constructor
      · intro h
        simp at h
      · rintro ⟨b, hb, hberr, _⟩
        have : b ∈ runs.filter (fun b => !strTruthy b.error) := by
          rw [List.mem_filter]
          exact ⟨hb, by simp [hberr]⟩
        rw [hf] at this
        simp at this
    · rw [if_neg hf]
      simp only [List.any_eq_true, List.mem_filter, Bool.not_eq_true']
      constructor
      · rintro ⟨b, ⟨hb, hberr⟩, hsig⟩
        exact ⟨b, hb, hberr, hsig⟩
      · rintro ⟨b, hb, hberr, hsig⟩
        exact ⟨b, ⟨hb, hberr⟩, hsig⟩

/-! ## Claim C1 -/

theorem le_jsRound {n : ℤ} {q : ℚ} (h : (n : ℚ) ≤ q) : n ≤ jsRound q := by
  rw [jsRound, Int.le_floor]
  linarith

theorem jsRound_le {n : ℤ} {q : ℚ} (h : q ≤ (n : ℚ)) : jsRound q ≤ n := by
  rw [jsRound]
  calc ⌊q + 1 / 2⌋ ≤ ⌊(n : ℚ) + 1 / 2⌋ := Int.floor_le_floor (by linarith)
    _ = n + ⌊(1 : ℚ) / 2⌋ := Int.floor_int_add n _
    _ = n := by norm_num

/-- Claim C1's counterexample: at normalized lengths 100 (raw) and 600
(rendered) the computed percentage is 500 — the `±200` cap only fires when
the magnitude already exceeds 500, so the claimed range [-200, 200] is
violated. -/
theorem percent_range_counterexample :
    percentChange 100 600 = 500 ∧ 200 < percentChange 100 600 := by
  have h : percentChange 100 600 = 500 := by
    norm_num [percentChange, jsRound]
  exact ⟨h, by rw [h]; norm_num⟩

/-- Claim C1 as amended: for every pair of normalized lengths the computed
percentage lies in [-100, 500] (not [-200, 200]); and when the raw length
is 0 with positive rendered length it is exactly 100, never a division
artifact. -/
theorem percent_change_range (rawLen renderedLen : ℕ) :
    -100 ≤ percentChange rawLen renderedLen ∧
    percentChange rawLen renderedLen ≤ 500 ∧
    (rawLen = 0 → 0 < renderedLen → percentChange rawLen renderedLen = 100) := by
  by_cases h0 : 0 < rawLen
  · have hraw : (0 : ℚ) < (rawLen : ℚ) := by exact_mod_cast h0
    set d : ℤ := (renderedLen : ℤ) - (rawLen : ℤ) with hd
    have hdlb : -(rawLen : ℤ) ≤ d := by
      have : (0 : ℤ) ≤ (renderedLen : ℤ) := Int.natCast_nonneg _
      omega
    have hqlb : (-100 : ℚ) ≤ (d : ℚ) / (rawLen : ℚ) * 100 := by
      rw [div_mul_eq_mul_div, le_div_iff₀ hraw]
      have : (-(rawLen : ℤ) : ℚ) ≤ (d : ℚ) := by exact_mod_cast hdlb
      push_cast at this ⊢
      nlinarith
    have hpctlb : -100 ≤ jsRound ((d : ℚ) / (rawLen : ℚ) * 100) := le_jsRound (by
      push_cast
      linarith)
    set pct : ℤ := jsRound ((d : ℚ) / (rawLen : ℚ) * 100) with hpct
    have hmain : percentChange rawLen renderedLen =
        (if 500 < |pct| then
          if rawLen < 100 then
            if 1000 < renderedLen then 100
            else min 50 (jsRound ((d : ℚ) / 10))
          else pct.sign * min |pct| 200
        else pct) := by
      rw [percentChange]
      simp only [hd, hpct, if_pos h0]
    refine ⟨?_, ?_, ?_⟩
    · rw [hmain]
      split_ifs with habs hsmall hbig
      · norm_num
      · have hdlb2 : -100 ≤ d := by omega
        have hjr : -10 ≤ jsRound ((d : ℚ) / 10) := le_jsRound (by
          rw [le_div_iff₀ (by norm_num : (0:ℚ) < 10)]
          have hc : (-100 : ℚ) ≤ (d : ℚ) := by exact_mod_cast hdlb2
          push_cast
          linarith)
        have := min_le_right 50 (jsRound ((d : ℚ) / 10))
        have h2 : (-10 : ℤ) ≤ min 50 (jsRound ((d : ℚ) / 10)) :=
          le_min (by norm_num) hjr
        omega
      · have hpos : 500 < pct := by
          rcases abs_cases pct with ⟨h1, h2⟩ | ⟨h1, h2⟩ <;> omega
        rw [Int.sign_eq_one_iff_pos.mpr (by omega), one_mul]
        have : min |pct| 200 = 200 := min_eq_right (by
          rw [abs_of_pos (by omega : (0:ℤ) < pct)]
          omega)
        omega
      · exact hpctlb
    · rw [hmain]
      split_ifs with habs hsmall hbig
      · norm_num
      · have := min_le_left 50 (jsRound ((d : ℚ) / 10))
        omega
      · have hpos : 500 < pct := by
          rcases abs_cases pct with ⟨h1, h2⟩ | ⟨h1, h2⟩ <;> omega
        rw [Int.sign_eq_one_iff_pos.mpr (by omega), one_mul]
        have : min |pct| 200 ≤ 200 := min_le_right _ _
        omega
      · rcases abs_cases pct with ⟨h1, h2⟩ | ⟨h1, h2⟩ <;> omega
    · intro hz
      omega
  · have hz : rawLen = 0 := by omega
    subst hz
    have hval : ∀ hr : 0 < renderedLen, percentChange 0 renderedLen = 100 := by
      intro hr
      rw [percentChange]
      simp [hr]
    refine ⟨?_, ?_, fun _ hr => hval hr⟩ <;> by_cases hr : 0 < renderedLen
    · rw [hval hr]; norm_num
    · rw [percentChange]; simp [hr]
    · rw [hval hr]; norm_num
    · rw [percentChange]; simp [hr]

/-- Witness for C1's amended theorem: zero raw content with rendered
content present yields exactly 100. -/
theorem percent_change_range_witness :
    (0 = 0 ∧ 0 < 7) ∧ percentChange 0 7 = 100 :=
  ⟨⟨rfl, by norm_num⟩, (percent_change_range 0 7).2.2 rfl (by norm_num)⟩

/-! ## Claim C4 -/

/-- Claim C4's counterexample: a settled page whose body text contains the
"captcha" indicator is detected as blocking, but the engine's run record
ends with `status = 'failed'` — the thrown blocking error is caught by the
engine loop's generic handler; no distinct `blocked` status exists in the
code. -/
theorem blocked_status_counterexample :
    detectBlocking
      ⟨"Security Check", some "Please complete the CAPTCHA to continue", 3⟩ = true ∧
    (recordRun (enhancedEvasionRun
      ⟨"Security Check", some "Please complete the CAPTCHA to continue", 3⟩
      {})).status = "failed" ∧
    (recordRun (enhancedEvasionRun
      ⟨"Security Check", some "Please complete the CAPTCHA to continue", 3⟩
      {})).status ≠ "blocked" := by
  refine ⟨by decide, ?_, ?_⟩ <;> decide

/-- Claim C4 as amended: whenever blocking indicators are found in the
settled document (or the body is missing/childless), the run throws the
blocking error, which the engine loop records as a `failed` run carrying
the error message and no findings at all (its truthy `error` excludes it
from aggregation); the recorded status is `failed`, not a distinct
`blocked`. -/
theorem blocked_run_recorded_failed (page : PageState) (analysis : BrowserRun)
    (h : detectBlocking page = true) :
    recordRun (enhancedEvasionRun page analysis) =
      failedRun "Site detected automation and blocked access" ∧
    (recordRun (enhancedEvasionRun page analysis)).status = "failed" ∧
    strTruthy (recordRun (enhancedEvasionRun page analysis)).error = true ∧
    (recordRun (enhancedEvasionRun page analysis)).jsRenderedContent = none ∧
    (recordRun (enhancedEvasionRun page analysis)).contentDifferencePercent = none := by
  refine ⟨?_, ?_, ?_, ?_, ?_⟩ <;>
    simp [enhancedEvasionRun, h, recordRun, failedRun, strTruthy]

/-- Witness for C4's amended theorem at the captcha page. -/
theorem blocked_run_recorded_failed_witness :
    detectBlocking
      ⟨"Robot or human?", some "Suspicious activity detected", 1⟩ = true ∧
    recordRun (enhancedEvasionRun
        ⟨"Robot or human?", some "Suspicious activity detected", 1⟩ {}) =
      failedRun "Site detected automation and blocked access" :=
  ⟨by decide,
   (blocked_run_recorded_failed
     ⟨"Robot or human?", some "Suspicious activity detected", 1⟩ {} (by decide)).1⟩

/-! ## Claim C6 -/

theorem length_filterMap_eq_length_filter {α β : Type} (f : α → Option β)
    (l : List α) :
    (l.filterMap f).length = (l.filter (fun x => (f x).isSome)).length := by
  induction l with
  | nil => rfl
  | cons x xs ih =>
    cases hfx : f x with
    | none => simp [List.filterMap_cons, List.filter_cons, hfx, ih]
    | some y => simp [List.filterMap_cons, List.filter_cons, hfx, ih]

/-- Claim C6's counterexample: with 21 button candidates all absent from
the raw snapshot, the reported interactive count is 20, not 21 — the code
truncates button candidates to the first 20 (`slice(0, 20)`) before
testing, so the count does not cover every candidate. -/
theorem missing_total_counterexample :
    (jsMissingReport "" ""
      { buttons := List.replicate 21 "Buy Now" }).interactiveElements.count = 20 ∧
    ((List.replicate 21 "Buy Now").filter
      (fun s => (buttonMissing (lowerList "".data) s).isSome)).length = 21 := by
  constructor <;> decide

/-- Claim C6 as amended: per category the reported examples are capped to
the first 3, while the count covers every candidate that is absent from
the raw snapshot — except for the interactive category, whose candidate
list is itself truncated to the first 20 before testing, so its count
covers only those. -/
theorem missing_counts_and_example_caps (rawHtml rawText : String)
    (doc : SettledDoc) :
    (jsMissingReport rawHtml rawText doc).navigation.count =
      (doc.navLinks.filter (fun s =>
        (navLinkMissing (lowerList rawHtml.data) (lowerList rawText.data) s).isSome)).length ∧
    (jsMissingReport rawHtml rawText doc).headings.count =
      (doc.headings.filter (fun s =>
        (headingMissing (lowerList rawHtml.data) (lowerList rawText.data) s).isSome)).length ∧
    (jsMissingReport rawHtml rawText doc).criticalData.count =
      (doc.priceElems.filter (fun s =>
        (priceMissing (lowerList rawHtml.data) s).isSome)).length ∧
    (jsMissingReport rawHtml rawText doc).interactiveElements.count =
      ((doc.buttons.take 20).filter (fun s =>
        (buttonMissing (lowerList rawHtml.data) s).isSome)).length ∧
    (jsMissingReport rawHtml rawText doc).navigation.examples.length ≤ 3 ∧
    (jsMissingReport rawHtml rawText doc).headings.examples.length ≤ 3 ∧
    (jsMissingReport rawHtml rawText doc).criticalData.examples.length ≤ 3 ∧
    (jsMissingReport rawHtml rawText doc).interactiveElements.examples.length ≤ 3 := by
  refine ⟨?_, ?_, ?_, ?_, ?_, ?_, ?_, ?_⟩ <;>
    simp [jsMissingReport, length_filterMap_eq_length_filter, List.length_take]

/-! ## Claim C8: lemmas about the normalizer scanners -/

theorem char_eq_of_toNat_eq {c d : Char} (h : c.toNat = d.toNat) : c = d :=
  Char.ext (UInt32.ext h)

theorem lcNat_low_iff {m n : ℕ} (hm : m < 65) : lcNat n = m ↔ n = m := by
  unfold lcNat
  split <;> omega

theorem ciEqChar_low_iff {k c : Char} (hk : k.toNat < 65) :
    ciEqChar k c = true ↔ c = k := by
  unfold ciEqChar
  have h1 : lcNat k.toNat = k.toNat := by
    unfold lcNat
    rw [if_neg]
    omega
  rw [h1, beq_iff_eq]
  constructor
  · intro h
    exact char_eq_of_toNat_eq ((lcNat_low_iff hk).mp h.symm)
  · intro h
    rw [h, h1]

theorem ciEqChar_low_ne {k c : Char} (hk : k.toNat < 65) (h : c ≠ k) :
    ciEqChar k c = false := by
  cases hb : ciEqChar k c with
  | false => rfl
  | true => exact absurd ((ciEqChar_low_iff hk).mp hb) h

theorem ciEqChar_refl (c : Char) : ciEqChar c c = true := by
  unfold ciEqChar
  exact beq_self_eq_true _

theorem ciPrefixL_self_append (p r : List Char) : ciPrefixL p (p ++ r) = true := by
  induction p with
  | nil => rfl
  | cons c cs ih => simp [ciPrefixL, ciEqChar_refl, ih]

theorem lt_toNat_lt : ('<' : Char).toNat < 65 := by decide

theorem delimMatch_cons_not_lt {c : Char} {ot close rest : List Char}
    {ng : Bool} (hc : c ≠ '<') : delimMatch ot close ng (c :: rest) = none := by
  unfold delimMatch
  rw [if_neg]
  simp [ciPrefixL, ciEqChar_low_ne lt_toNat_lt hc]

theorem delimMatch_cons_lt_not_open {ot close rest : List Char} {ng : Bool}
    (h : ciPrefixL ot rest = false) :
    delimMatch ot close ng ('<' :: rest) = none := by
  unfold delimMatch
  rw [if_neg]
  simp [ciPrefixL, h]

theorem removeDelim_nil (ot close : List Char) (ng : Bool) :
    removeDelim ot close ng [] = [] := by
  rw [removeDelim]

theorem removeDelim_cons_of_none {ot close rest : List Char} {ng : Bool} {c : Char}
    (h : delimMatch ot close ng (c :: rest) = none) :
    removeDelim ot close ng (c :: rest) = c :: removeDelim ot close ng rest := by
  rw [removeDelim]
  split
  · rename_i r2 h2
    rw [h2] at h
    cases h
  · rfl

theorem removeDelim_cons_of_some {ot close rest r : List Char} {ng : Bool} {c : Char}
    (h : delimMatch ot close ng (c :: rest) = some r) :
    removeDelim ot close ng (c :: rest) = removeDelim ot close ng r := by
  rw [removeDelim]
  split
  · rename_i r2 h2
    rw [h2] at h
    injection h with h
    rw [h]
  · rename_i h2
    rw [h2] at h
    cases h

theorem removeDelim_eq_self {ot close l : List Char} {ng : Bool}
    (h : ∀ c ∈ l, c ≠ '<') : removeDelim ot close ng l = l := by
  induction l with
  | nil => exact removeDelim_nil ot close ng
  | cons c rest ih =>
    rw [removeDelim_cons_of_none (delimMatch_cons_not_lt (h c (List.mem_cons_self c rest)))]
    rw [ih (fun d hd => h d (List.mem_cons_of_mem c hd))]

theorem removeDelim_append {ot close a l : List Char} {ng : Bool}
    (h : ∀ c ∈ a, c ≠ '<') :
    removeDelim ot close ng (a ++ l) = a ++ removeDelim ot close ng l := by
  induction a with
  | nil => simp
  | cons c rest ih =>
    rw [List.cons_append,
      removeDelim_cons_of_none (delimMatch_cons_not_lt (h c (List.mem_cons_self c rest))),
      ih (fun d hd => h d (List.mem_cons_of_mem c hd))]
    rfl

theorem stripTags_nil : stripTags [] = [] := by rw [stripTags]

theorem stripTags_cons_not_lt {c : Char} {rest : List Char} (hc : c ≠ '<') :
    stripTags (c :: rest) = c :: stripTags rest := by
  rw [stripTags]
  rw [if_neg hc]

theorem stripTags_cons_lt_some {rest r : List Char} (h : dropThroughGt rest = some r) :
    stripTags ('<' :: rest) = ' ' :: stripTags r := by
  rw [stripTags]
  rw [if_pos rfl]
  split
  · rename_i r2 h2
    rw [h2] at h
    injection h with h
    rw [h]
  · rename_i h2
    rw [h2] at h
    cases h

theorem stripTags_eq_self {l : List Char} (h : ∀ c ∈ l, c ≠ '<') :
    stripTags l = l := by
  induction l with
  | nil => exact stripTags_nil
  | cons c rest ih =>
    rw [stripTags_cons_not_lt (h c (List.mem_cons_self c rest)),
      ih (fun d hd => h d (List.mem_cons_of_mem c hd))]

theorem stripTags_append {a l : List Char} (h : ∀ c ∈ a, c ≠ '<') :
    stripTags (a ++ l) = a ++ stripTags l := by
  induction a with
  | nil => simp
  | cons c rest ih =>
    rw [List.cons_append, stripTags_cons_not_lt (h c (List.mem_cons_self c rest)),
      ih (fun d hd => h d (List.mem_cons_of_mem c hd))]
    rfl

theorem dropThroughGt_append {t b : List Char} (h : ∀ c ∈ t, c ≠ '>') :
    dropThroughGt (t ++ '>' :: b) = some b := by
  induction t with
  | nil => simp [dropThroughGt]
  | cons c rest ih =>
    rw [List.cons_append, dropThroughGt, if_neg (h c (List.mem_cons_self c rest))]
    exact ih (fun d hd => h d (List.mem_cons_of_mem c hd))

theorem findClose_skip {k : Char} {cl s l : List Char}
    (h : ∀ c ∈ s, ciEqChar k c = false) :
    findClose (k :: cl) (s ++ l) = findClose (k :: cl) l := by
  induction s with
  | nil => simp
  | cons c rest ih =>
    rw [List.cons_append, findClose, if_neg]
    · exact ih (fun d hd => h d (List.mem_cons_of_mem c hd))
    · simp [ciPrefixL, h c (List.mem_cons_self c rest)]

theorem findClose_at_head {k : Char} {cl b : List Char} :
    findClose (k :: cl) ((k :: cl) ++ b) = some b := by
  rw [List.cons_append, findClose,
    if_pos (by rw [← List.cons_append]; exact ciPrefixL_self_append (k :: cl) b)]
  rw [← List.cons_append, List.drop_left]

/-- Is the first character (if any) not whitespace? -/
def headNotWs : List Char → Bool
  | [] => true
  | c :: _ => !jsWs c

/-- Is the last character (if any) not whitespace? -/
def lastNotWs (l : List Char) : Bool := headNotWs l.reverse

/-- No two adjacent whitespace characters. -/
def noDoubleWs : List Char → Bool
  | [] => true
  | [_] => true
  | a :: b :: rest => !(jsWs a && jsWs b) && noDoubleWs (b :: rest)

theorem noDoubleWs_tail {c : Char} {l : List Char}
    (h : noDoubleWs (c :: l) = true) : noDoubleWs l = true := by
  cases l with
  | nil => rfl
  | cons d r =>
    rw [noDoubleWs] at h
    exact (Bool.and_eq_true _ _ |>.mp h).2

theorem noDoubleWs_cons {c : Char} {l : List Char} (h1 : noDoubleWs l = true)
    (h2 : jsWs c = false ∨ headNotWs l = true) : noDoubleWs (c :: l) = true := by
  cases l with
  | nil => rfl
  | cons d r =>
    rw [noDoubleWs, Bool.and_eq_true]
    refine ⟨?_, h1⟩
    rcases h2 with h2 | h2
    · simp [h2]
    · rw [headNotWs] at h2
      simp only [Bool.not_eq_true'] at h2
      simp [h2]

theorem noDoubleWs_append_left :
    ∀ {x y : List Char}, noDoubleWs (x ++ y) = true → noDoubleWs x = true
  | [], _, _ => rfl
  | [_], _, _ => rfl
  | a :: b :: r, y, h => by
    simp only [List.cons_append] at h
    rw [noDoubleWs, Bool.and_eq_true] at h
    rw [noDoubleWs, Bool.and_eq_true]
    exact ⟨h.1, noDoubleWs_append_left (x := b :: r) (by rw [List.cons_append]; exact h.2)⟩

theorem noDoubleWs_append_right :
    ∀ {x y : List Char}, noDoubleWs (x ++ y) = true → noDoubleWs y = true
  | [], _, h => h
  | c :: r, y, h => by
    rw [List.cons_append] at h
    exact noDoubleWs_append_right (noDoubleWs_tail h)

theorem collapseGo_noDoubleWs (l : List Char) :
    ∀ flag, noDoubleWs (collapseGo flag l) = true ∧
      (flag = true → headNotWs (collapseGo flag l) = true) := by
  induction l with
  | nil => intro flag; exact ⟨rfl, fun _ => rfl⟩
  | cons c rest ih =>
    intro flag
    by_cases hws : jsWs c = true
    · cases flag with
      | true =>
        rw [collapseGo, if_pos hws, if_pos rfl]
        exact ⟨(ih true).1, (ih true).2⟩
      | false =>
        rw [collapseGo, if_pos hws]
        simp only [Bool.false_eq_true, if_false]
        constructor
        · exact noDoubleWs_cons (ih true).1 (Or.inr ((ih true).2 rfl))
        · intro hcontra
          cases hcontra
    · have hws' : jsWs c = false := by
        cases h : jsWs c
        · rfl
        · exact absurd h hws
      rw [collapseGo, if_neg hws]
      refine ⟨noDoubleWs_cons (ih false).1 (Or.inl hws'), fun _ => ?_⟩
      rw [headNotWs, hws']
      rfl

theorem collapseGo_no_ws {l : List Char} (h : ∀ c ∈ l, jsWs c = false) :
    ∀ flag, collapseGo flag l = l := by
  induction l with
  | nil => intro flag; rfl
  | cons c rest ih =>
    intro flag
    rw [collapseGo, if_neg (by rw [h c (List.mem_cons_self c rest)]; simp)]
    rw [ih (fun d hd => h d (List.mem_cons_of_mem c hd))]

theorem collapseGo_single_space {a b : List Char}
    (ha : ∀ c ∈ a, jsWs c = false) (hb : ∀ c ∈ b, jsWs c = false) :
    collapseGo false (a ++ ' ' :: b) = a ++ ' ' :: b := by
  induction a with
  | nil =>
    rw [List.nil_append, collapseGo, if_pos (by decide)]
    simp only [Bool.false_eq_true, if_false]
    rw [collapseGo_no_ws hb]
  | cons c rest ih =>
    rw [List.cons_append, collapseGo,
      if_neg (by rw [ha c (List.mem_cons_self c rest)]; simp)]
    rw [ih (fun d hd => ha d (List.mem_cons_of_mem c hd))]

theorem dropWhile_eq_self_of_head {p : Char → Bool} {l : List Char}
    (h : ∀ c, l.head? = some c → p c = false) : l.dropWhile p = l := by
  cases l with
  | nil => rfl
  | cons c rest =>
    rw [List.dropWhile_cons, if_neg]
    rw [h c rfl]
    simp

theorem headNotWs_dropWhile (l : List Char) :
    headNotWs (l.dropWhile jsWs) = true := by
  cases h : l.dropWhile jsWs with
  | nil => rfl
  | cons c rest =>
    rw [headNotWs]
    have := List.head?_dropWhile_not jsWs l
    rw [h] at this
    simp only [List.head?_cons] at this
    rw [this]
    rfl

theorem headNotWs_of_append {x y : List Char}
    (h : headNotWs (x ++ y) = true) : headNotWs x = true := by
  cases x with
  | nil => rfl
  | cons c r =>
    rw [List.cons_append, headNotWs] at h
    rw [headNotWs]
    exact h

theorem noDoubleWs_suffix {x l : List Char} (h : x <:+ l)
    (hl : noDoubleWs l = true) : noDoubleWs x = true := by
  obtain ⟨t, ht⟩ := h
  rw [← ht] at hl
  exact noDoubleWs_append_right hl

/-- The result of `trimWs` on a collapse output: trimmed at both ends,
still free of double whitespace. -/
theorem trimWs_wellSpaced {m : List Char} (hm : noDoubleWs m = true) :
    headNotWs (trimWs m) = true ∧ lastNotWs (trimWs m) = true ∧
      noDoubleWs (trimWs m) = true := by
  rw [trimWs]
  set m1 := m.dropWhile jsWs with hm1
  have hm1head : headNotWs m1 = true := headNotWs_dropWhile m
  have hm1nd : noDoubleWs m1 = true :=
    noDoubleWs_suffix (List.dropWhile_suffix jsWs) hm
  set u := m1.reverse.dropWhile jsWs with hu
  obtain ⟨t, ht⟩ : u <:+ m1.reverse := List.dropWhile_suffix jsWs
  have hdecomp : u.reverse ++ t.reverse = m1 := by
    rw [← List.reverse_append, ht, List.reverse_reverse]
  refine ⟨?_, ?_, ?_⟩
  · rw [← hdecomp] at hm1head
    exact headNotWs_of_append hm1head
  · rw [lastNotWs, List.reverse_reverse]
    exact headNotWs_dropWhile m1.reverse
  · rw [← hdecomp] at hm1nd
    exact noDoubleWs_append_left hm1nd

theorem dropWhile_no_ws {l : List Char} (h : ∀ c ∈ l, jsWs c = false) :
    l.dropWhile jsWs = l :=
  dropWhile_eq_self_of_head (by
    intro c hc
    cases l with
    | nil => cases hc
    | cons d r =>
      simp only [List.head?_cons, Option.some.injEq] at hc
      rw [← hc]
      exact h d (List.mem_cons_self d r))

theorem trimWs_no_ws {l : List Char} (h : ∀ c ∈ l, jsWs c = false) :
    trimWs l = l := by
  rw [trimWs, dropWhile_no_ws h,
    dropWhile_no_ws (fun c hc => h c (List.mem_reverse.mp hc)), List.reverse_reverse]

theorem trimWs_single_space {a b : List Char} (ha : ∀ c ∈ a, jsWs c = false)
    (hb : ∀ c ∈ b, jsWs c = false) (hane : a ≠ []) (hbne : b ≠ []) :
    trimWs (a ++ ' ' :: b) = a ++ ' ' :: b := by
  rw [trimWs]
  have h1 : (a ++ ' ' :: b).dropWhile jsWs = a ++ ' ' :: b := by
    apply dropWhile_eq_self_of_head
    intro c hc
    cases a with
    | nil => exact absurd rfl hane
    | cons d r =>
      simp only [List.cons_append, List.head?_cons, Option.some.injEq] at hc
      rw [← hc]
      exact ha d (List.mem_cons_self d r)
  rw [h1]
  have h2 : (a ++ ' ' :: b).reverse.dropWhile jsWs = (a ++ ' ' :: b).reverse := by
    apply dropWhile_eq_self_of_head
    intro c hc
    rw [List.reverse_append, List.reverse_cons] at hc
    cases hbr : b.reverse with
    | nil => exact absurd (List.reverse_eq_nil_iff.mp hbr) hbne
    | cons d r =>
      rw [hbr, List.cons_append, List.cons_append, List.head?_cons] at hc
      injection hc with hc
      rw [← hc]
      exact hb d (List.mem_reverse.mp (by rw [hbr]; exact List.mem_cons_self d r))
  rw [h2, List.reverse_reverse]

theorem removeDelim_not_open_preserved {ot close rest : List Char} {ng : Bool}
    (hpre : ciPrefixL ot rest = false) (hrest : ∀ c ∈ rest, c ≠ '<') :
    removeDelim ot close ng ('<' :: rest) = '<' :: rest := by
  rw [removeDelim_cons_of_none (delimMatch_cons_lt_not_open hpre),
    removeDelim_eq_self hrest]

theorem dash_toNat_lt : ('-' : Char).toNat < 65 := by decide

theorem delimMatch_script_block {s b : List Char} (hs : ∀ c ∈ s, c ≠ '<') :
    delimMatch ['s', 'c', 'r', 'i', 'p', 't']
      ['<', '/', 's', 'c', 'r', 'i', 'p', 't', '>'] true
      ('<' :: 's' :: 'c' :: 'r' :: 'i' :: 'p' :: 't' :: '>' ::
        (s ++ '<' :: '/' :: 's' :: 'c' :: 'r' :: 'i' :: 'p' :: 't' :: '>' :: b)) =
      some b := by
  unfold delimMatch
  rw [if_pos (by simp [ciPrefixL, ciEqChar_refl])]
  simp only [List.length_cons, List.length_nil]
  rw [show ('<' :: 's' :: 'c' :: 'r' :: 'i' :: 'p' :: 't' :: '>' ::
      (s ++ '<' :: '/' :: 's' :: 'c' :: 'r' :: 'i' :: 'p' :: 't' :: '>' :: b)).drop
      (0 + 1 + 1 + 1 + 1 + 1 + 1 + 1) =
    '>' :: (s ++ '<' :: '/' :: 's' :: 'c' :: 'r' :: 'i' :: 'p' :: 't' :: '>' :: b)
    from rfl]
  simp only [if_true]
  rw [dropThroughGt, if_pos rfl]
  have hcis : ∀ c ∈ s, ciEqChar '<' c = false :=
    fun c hc => ciEqChar_low_ne lt_toNat_lt (hs c hc)
  show findClose ['<', '/', 's', 'c', 'r', 'i', 'p', 't', '>']
    (s ++ '<' :: '/' :: 's' :: 'c' :: 'r' :: 'i' :: 'p' :: 't' :: '>' :: b) = some b
  rw [findClose_skip hcis]
  rw [show ('<' :: '/' :: 's' :: 'c' :: 'r' :: 'i' :: 'p' :: 't' :: '>' :: b) =
    ['<', '/', 's', 'c', 'r', 'i', 'p', 't', '>'] ++ b from rfl]
  exact findClose_at_head

theorem delimMatch_style_block {s b : List Char} (hs : ∀ c ∈ s, c ≠ '<') :
    delimMatch ['s', 't', 'y', 'l', 'e']
      ['<', '/', 's', 't', 'y', 'l', 'e', '>'] true
      ('<' :: 's' :: 't' :: 'y' :: 'l' :: 'e' :: '>' ::
        (s ++ '<' :: '/' :: 's' :: 't' :: 'y' :: 'l' :: 'e' :: '>' :: b)) =
      some b := by
  unfold delimMatch
  rw [if_pos (by simp [ciPrefixL, ciEqChar_refl])]
  simp only [List.length_cons, List.length_nil]
  rw [show ('<' :: 's' :: 't' :: 'y' :: 'l' :: 'e' :: '>' ::
      (s ++ '<' :: '/' :: 's' :: 't' :: 'y' :: 'l' :: 'e' :: '>' :: b)).drop
      (0 + 1 + 1 + 1 + 1 + 1 + 1) =
    '>' :: (s ++ '<' :: '/' :: 's' :: 't' :: 'y' :: 'l' :: 'e' :: '>' :: b)
    from rfl]
  simp only [if_true]
  rw [dropThroughGt, if_pos rfl]
  have hcis : ∀ c ∈ s, ciEqChar '<' c = false :=
    fun c hc => ciEqChar_low_ne lt_toNat_lt (hs c hc)
  show findClose ['<', '/', 's', 't', 'y', 'l', 'e', '>']
    (s ++ '<' :: '/' :: 's' :: 't' :: 'y' :: 'l' :: 'e' :: '>' :: b) = some b
  rw [findClose_skip hcis]
  rw [show ('<' :: '/' :: 's' :: 't' :: 'y' :: 'l' :: 'e' :: '>' :: b) =
    ['<', '/', 's', 't', 'y', 'l', 'e', '>'] ++ b from rfl]
  exact findClose_at_head

theorem delimMatch_comment_block {s b : List Char} (hs : ∀ c ∈ s, c ≠ '-') :
    delimMatch ['!', '-', '-'] ['-', '-', '>'] false
      ('<' :: '!' :: '-' :: '-' :: (s ++ '-' :: '-' :: '>' :: b)) = some b := by
  unfold delimMatch
  rw [if_pos (by simp [ciPrefixL, ciEqChar_refl])]
  simp only [List.length_cons, List.length_nil]
  rw [show ('<' :: '!' :: '-' :: '-' ::
      (s ++ '-' :: '-' :: '>' :: b)).drop (0 + 1 + 1 + 1 + 1) =
    s ++ '-' :: '-' :: '>' :: b from rfl]
  simp only [Bool.false_eq_true, if_false]
  have hcis : ∀ c ∈ s, ciEqChar '-' c = false :=
    fun c hc => ciEqChar_low_ne dash_toNat_lt (hs c hc)
  show findClose ['-', '-', '>'] (s ++ '-' :: '-' :: '>' :: b) = some b
  rw [findClose_skip hcis]
  rw [show ('-' :: '-' :: '>' :: b) = ['-', '-', '>'] ++ b from rfl]
  exact findClose_at_head

/-- Claim C8: `cleanHtml` is a pure total function (the embedding is a
total Lean function; the six `replace` passes and `trim` cannot throw):
it deletes script blocks, style blocks and comments; replaces every
remaining tag by a single space, so two words separated only by a tag are
never concatenated into one token; and the final collapse and trim steps
leave no leading, trailing or doubled whitespace in any output. -/
theorem normalize_contract :
    (∀ (a t b : List Char),
      (∀ c ∈ a, c ≠ '<' ∧ jsWs c = false) → a ≠ [] →
      (∀ c ∈ b, c ≠ '<' ∧ jsWs c = false) → b ≠ [] →
      (∀ c ∈ t, c ≠ '<' ∧ c ≠ '>') →
      ciPrefixL ['s', 'c', 'r', 'i', 'p', 't'] (t ++ '>' :: b) = false →
      ciPrefixL ['s', 't', 'y', 'l', 'e'] (t ++ '>' :: b) = false →
      ciPrefixL ['!', '-', '-'] (t ++ '>' :: b) = false →
      cleanHtml (a ++ '<' :: (t ++ '>' :: b)) = a ++ ' ' :: b) ∧
    (∀ (a s b : List Char),
      (∀ c ∈ a, c ≠ '<' ∧ jsWs c = false) →
      (∀ c ∈ b, c ≠ '<' ∧ jsWs c = false) →
      (∀ c ∈ s, c ≠ '<') →
      cleanHtml (a ++ '<' :: 's' :: 'c' :: 'r' :: 'i' :: 'p' :: 't' :: '>' ::
        (s ++ '<' :: '/' :: 's' :: 'c' :: 'r' :: 'i' :: 'p' :: 't' :: '>' :: b)) =
        a ++ b) ∧
    (∀ (a s b : List Char),
      (∀ c ∈ a, c ≠ '<' ∧ jsWs c = false) →
      (∀ c ∈ b, c ≠ '<' ∧ jsWs c = false) →
      (∀ c ∈ s, c ≠ '<') →
      cleanHtml (a ++ '<' :: 's' :: 't' :: 'y' :: 'l' :: 'e' :: '>' ::
        (s ++ '<' :: '/' :: 's' :: 't' :: 'y' :: 'l' :: 'e' :: '>' :: b)) =
        a ++ b) ∧
    (∀ (a s b : List Char),
      (∀ c ∈ a, c ≠ '<' ∧ jsWs c = false) →
      (∀ c ∈ b, c ≠ '<' ∧ jsWs c = false) →
      (∀ c ∈ s, c ≠ '<' ∧ c ≠ '-') →
      cleanHtml (a ++ '<' :: '!' :: '-' :: '-' ::
        (s ++ '-' :: '-' :: '>' :: b)) = a ++ b) ∧
    (∀ l : List Char, headNotWs (cleanHtml l) = true ∧
      lastNotWs (cleanHtml l) = true ∧ noDoubleWs (cleanHtml l) = true) := by
  refine ⟨?_, ?_, ?_, ?_, ?_⟩
  · intro a t b ha hane hb hbne ht hsc hst hcm
    have ha' : ∀ c ∈ a, c ≠ '<' := fun c hc => (ha c hc).1
    have haw : ∀ c ∈ a, jsWs c = false := fun c hc => (ha c hc).2
    have hb' : ∀ c ∈ b, c ≠ '<' := fun c hc => (hb c hc).1
    have hbw : ∀ c ∈ b, jsWs c = false := fun c hc => (hb c hc).2
    have htg : ∀ c ∈ t, c ≠ '>' := fun c hc => (ht c hc).2
    have hrest : ∀ c ∈ t ++ '>' :: b, c ≠ '<' := by
      intro c hc
      rcases List.mem_append.mp hc with h | h
      · exact (ht c h).1
      · rcases List.mem_cons.mp h with h | h
        · rw [h]; decide
        · exact hb' c h
    unfold cleanHtml stripScripts stripStyles stripComments collapseWs
    rw [removeDelim_append ha', removeDelim_not_open_preserved hsc hrest,
      removeDelim_append ha', removeDelim_not_open_preserved hst hrest,
      removeDelim_append ha', removeDelim_not_open_preserved hcm hrest,
      stripTags_append ha', stripTags_cons_lt_some (dropThroughGt_append htg),
      stripTags_eq_self hb', collapseGo_single_space haw hbw,
      trimWs_single_space haw hbw hane hbne]
  · intro a s b ha hb hs
    have ha' : ∀ c ∈ a, c ≠ '<' := fun c hc => (ha c hc).1
    have hb' : ∀ c ∈ b, c ≠ '<' := fun c hc => (hb c hc).1
    have hab' : ∀ c ∈ a ++ b, c ≠ '<' := by
      intro c hc
      rcases List.mem_append.mp hc with h | h
      · exact ha' c h
      · exact hb' c h
    have habw : ∀ c ∈ a ++ b, jsWs c = false := by
      intro c hc
      rcases List.mem_append.mp hc with h | h
      · exact (ha c h).2
      · exact (hb c h).2
    unfold cleanHtml stripScripts stripStyles stripComments collapseWs
    rw [removeDelim_append ha',
      removeDelim_cons_of_some (delimMatch_script_block hs),
      removeDelim_eq_self hb', removeDelim_eq_self hab',
      removeDelim_eq_self hab', stripTags_eq_self hab',
      collapseGo_no_ws habw false, trimWs_no_ws habw]
  · intro a s b ha hb hs
    have ha' : ∀ c ∈ a, c ≠ '<' := fun c hc => (ha c hc).1
    have hb' : ∀ c ∈ b, c ≠ '<' := fun c hc => (hb c hc).1
    have hab' : ∀ c ∈ a ++ b, c ≠ '<' := by
      intro c hc
      rcases List.mem_append.mp hc with h | h
      · exact ha' c h
      · exact hb' c h
    have habw : ∀ c ∈ a ++ b, jsWs c = false := by
      intro c hc
      rcases List.mem_append.mp hc with h | h
      · exact (ha c h).2
      · exact (hb c h).2
    have hpre : ciPrefixL ['s', 'c', 'r', 'i', 'p', 't']
        ('s' :: 't' :: 'y' :: 'l' :: 'e' :: '>' ::
          (s ++ '<' :: '/' :: 's' :: 't' :: 'y' :: 'l' :: 'e' :: '>' :: b)) = false := by
      have h1 : ciEqChar 'c' 't' = false := by decide
      simp [ciPrefixL, ciEqChar_refl, h1]
    have hpre2 : ciPrefixL ['s', 'c', 'r', 'i', 'p', 't']
        ('/' :: 's' :: 't' :: 'y' :: 'l' :: 'e' :: '>' :: b) = false := by
      have h1 : ciEqChar 's' '/' = false := by decide
      simp [ciPrefixL, h1]
    have hx1 : ∀ c ∈ (['s', 't', 'y', 'l', 'e', '>'] ++ s), c ≠ '<' := by
      intro c hc
      rcases List.mem_append.mp hc with h | h
      · simp only [List.mem_cons, List.not_mem_nil, or_false] at h
        rcases h with rfl | rfl | rfl | rfl | rfl | rfl <;> decide
      · exact hs c h
    have hx2 : ∀ c ∈ ('/' :: 's' :: 't' :: 'y' :: 'l' :: 'e' :: '>' :: b), c ≠ '<' := by
      intro c hc
      simp only [List.mem_cons] at hc
      rcases hc with rfl | rfl | rfl | rfl | rfl | rfl | rfl | h
      · decide
      · decide
      · decide
      · decide
      · decide
      · decide
      · decide
      · exact hb' c h
    unfold cleanHtml stripScripts stripStyles stripComments collapseWs
    rw [removeDelim_append ha',
      removeDelim_cons_of_none (delimMatch_cons_lt_not_open hpre)]
    rw [show ('s' :: 't' :: 'y' :: 'l' :: 'e' :: '>' ::
        (s ++ '<' :: '/' :: 's' :: 't' :: 'y' :: 'l' :: 'e' :: '>' :: b)) =
      (['s', 't', 'y', 'l', 'e', '>'] ++ s) ++
        ('<' :: '/' :: 's' :: 't' :: 'y' :: 'l' :: 'e' :: '>' :: b) by simp]
    rw [removeDelim_append hx1,
      removeDelim_cons_of_none (delimMatch_cons_lt_not_open hpre2),
      removeDelim_eq_self hx2]
    rw [show ('<' :: ((['s', 't', 'y', 'l', 'e', '>'] ++ s) ++
        ('<' :: '/' :: 's' :: 't' :: 'y' :: 'l' :: 'e' :: '>' :: b))) =
      ('<' :: 's' :: 't' :: 'y' :: 'l' :: 'e' :: '>' ::
        (s ++ '<' :: '/' :: 's' :: 't' :: 'y' :: 'l' :: 'e' :: '>' :: b)) by simp]
    rw [removeDelim_append ha',
      removeDelim_cons_of_some (delimMatch_style_block hs),
      removeDelim_eq_self hb', removeDelim_eq_self hab',
      stripTags_eq_self hab', collapseGo_no_ws habw false, trimWs_no_ws habw]
  · intro a s b ha hb hs
    have ha' : ∀ c ∈ a, c ≠ '<' := fun c hc => (ha c hc).1
    have hb' : ∀ c ∈ b, c ≠ '<' := fun c hc => (hb c hc).1
    have hs' : ∀ c ∈ s, c ≠ '<' := fun c hc => (hs c hc).1
    have hsd : ∀ c ∈ s, c ≠ '-' := fun c hc => (hs c hc).2
    have hab' : ∀ c ∈ a ++ b, c ≠ '<' := by
      intro c hc
      rcases List.mem_append.mp hc with h | h
      · exact ha' c h
      · exact hb' c h
    have habw : ∀ c ∈ a ++ b, jsWs c = false := by
      intro c hc
      rcases List.mem_append.mp hc with h | h
      · exact (ha c h).2
      · exact (hb c h).2
    have hpre1 : ciPrefixL ['s', 'c', 'r', 'i', 'p', 't']
        ('!' :: '-' :: '-' :: (s ++ '-' :: '-' :: '>' :: b)) = false := by
      have h1 : ciEqChar 's' '!' = false := by decide
      simp [ciPrefixL, h1]
    have hpre2 : ciPrefixL ['s', 't', 'y', 'l', 'e']
        ('!' :: '-' :: '-' :: (s ++ '-' :: '-' :: '>' :: b)) = false := by
      have h1 : ciEqChar 's' '!' = false := by decide
      simp [ciPrefixL, h1]
    have hrest : ∀ c ∈ '!' :: '-' :: '-' :: (s ++ '-' :: '-' :: '>' :: b), c ≠ '<' := by
      intro c hc
      simp only [List.mem_cons, List.mem_append] at hc
      rcases hc with rfl | rfl | rfl | h | rfl | rfl | rfl | h
      · decide
      · decide
      · decide
      · exact hs' c h
      · decide
      · decide
      · decide
      · exact hb' c h
    unfold cleanHtml stripScripts stripStyles stripComments collapseWs
    rw [removeDelim_append ha', removeDelim_not_open_preserved hpre1 hrest,
      removeDelim_append ha', removeDelim_not_open_preserved hpre2 hrest,
      removeDelim_append ha',
      removeDelim_cons_of_some (delimMatch_comment_block hsd),
      removeDelim_eq_self hb', stripTags_eq_self hab',
      collapseGo_no_ws habw false, trimWs_no_ws habw]
  · intro l
    unfold cleanHtml collapseWs
    exact trimWs_wellSpaced ((collapseGo_noDoubleWs _ false).1)

/-- Witness for C8: a concrete tag between two words becomes a single
separating space. -/
theorem normalize_contract_witness :
    ((∀ c ∈ ['H', 'i'], c ≠ '<' ∧ jsWs c = false) ∧
      (['H', 'i'] : List Char) ≠ [] ∧
      ciPrefixL ['s', 'c', 'r', 'i', 'p', 't'] (['e', 'm'] ++ '>' :: ['y', 'o']) = false) ∧
    cleanHtml (['H', 'i'] ++ '<' :: (['e', 'm'] ++ '>' :: ['y', 'o'])) =
      ['H', 'i'] ++ ' ' :: ['y', 'o'] :=
  ⟨⟨by decide, by decide, by decide⟩,
   normalize_contract.1 ['H', 'i'] ['e', 'm'] ['y', 'o'] (by decide) (by decide)
     (by decide) (by decide) (by decide) (by decide) (by decide) (by decide)⟩

end JSA
